import Mathlib

/-!
Verification of the DebatedAI turn-segmentation and speaker-resolution engine.

The definitions below are a shallow embedding of the repository's core:

* the line-oriented turn segmenter and error handling inside
  DebateSession.nextTurn (src/types.ts, service part, lines 209-277),
* team construction inside DebateSession.initializeTeams (lines 49-207),
* the per-segment speaker resolution and side attribution performed by
  triggerNextTurn in the application component (src/unnamed/part_000,
  lines 79-159).

JavaScript strings are modelled as Lean String / List Char; JavaScript
values coming out of JSON.parse are modelled by the JSValue inductive;
thrown exceptions are modelled with Except; the external model call is an
oracle parameter (Except String String) supplied by the caller.
-/

/-- The set of characters matched by the JavaScript regex class \s and
removed by String.prototype.trim: ASCII whitespace, NBSP, the Unicode
space separators, the line separators and the BOM. -/
def isJsWhitespace (c : Char) : Bool :=
  c == ' ' || c == '\t' || c == '\n' || c == '\r' ||
  c == '\x0b' || c == '\x0c' ||
  c == ' ' || c == ' ' ||
  (' ' ≤ c && c ≤ ' ') ||
  c == ' ' || c == ' ' || c == ' ' ||
  c == ' ' || c == '　' || c == '﻿'

/-- Characters the JavaScript regex metacharacter . does not match
(line terminators). -/
def isRegexLineTerm (c : Char) : Bool :=
  c == '\n' || c == '\r' || c == ' ' || c == ' '

/-- Strip leading and trailing JS whitespace from a character list;
models String.prototype.trim. -/
def jsTrimL (s : List Char) : List Char :=
  ((s.dropWhile isJsWhitespace).reverse.dropWhile isJsWhitespace).reverse

/-- String.prototype.trim on Lean strings. -/
def jsTrim (s : String) : String :=
  String.mk (jsTrimL s.data)

/-- text.split('\n') on character lists: split at every newline, keeping
empty pieces, always returning at least one piece. -/
def splitLines : List Char → List (List Char)
  | [] => [[]]
  | c :: cs =>
    if c = '\n' then [] :: splitLines cs
    else
      match splitLines cs with
      | [] => [[c]]
      | l :: ls => (c :: l) :: ls

/-- lines.join('\n') on character lists. -/
def joinLines : List (List Char) → List Char
  | [] => []
  | [l] => l
  | l :: l' :: ls => l ++ '\n' :: joinLines (l' :: ls)

theorem splitLines_ne_nil (s : List Char) : splitLines s ≠ [] := by
  induction s with
  | nil => simp [splitLines]
  | cons c cs ih =>
    simp only [splitLines]
    split
    · simp
    · cases h : splitLines cs with
      | nil => simp
      | cons l ls => simp

theorem joinLines_splitLines (s : List Char) : joinLines (splitLines s) = s := by
  induction s with
  | nil => rfl
  | cons c cs ih =>
    simp only [splitLines]
    split
    · rename_i hc
      cases h : splitLines cs with
      | nil => exact absurd h (splitLines_ne_nil cs)
      | cons l ls =>
        rw [h] at ih
        simp [joinLines, ih, hc]
    · cases h : splitLines cs with
      | nil => exact absurd h (splitLines_ne_nil cs)
      | cons l ls =>
        rw [h] at ih
        cases ls with
        | nil => simp_all [joinLines]
        | cons l' ls' => simp_all [joinLines]

/-- Match the regex ^TAG:\s*(.*) case-insensitively (tag given in
lowercase, ending in the colon): on success return the captured group,
i.e. the rest of the line with leading JS whitespace dropped and cut at
the first line terminator. Models line.match(/^MODERATOR:\s*(.*)/i) and
line.match(/^SPEAKER:\s*(.*)/i) in DebateSession.nextTurn. -/
def matchTagL : List Char → List Char → Option (List Char)
  | [], rest => some ((rest.dropWhile isJsWhitespace).takeWhile (fun c => !isRegexLineTerm c))
  | _ :: _, [] => none
  | t :: ts, c :: cs => if c.toLower = t then matchTagL ts cs else none

/-- The literal prefix of the moderator tag, lowercase. -/
def modTag : List Char := "moderator:".data

/-- The literal prefix of the speaker tag, lowercase. -/
def spkTag : List Char := "speaker:".data

/-- A line is recognized as a tag line if either regex matches. -/
def isTagLine (l : List Char) : Bool :=
  (matchTagL modTag l).isSome || (matchTagL spkTag l).isSome

theorem matchTagL_isSome_iff (tag : List Char) :
    ∀ line : List Char,
      (matchTagL tag line).isSome = true ↔ (line.take tag.length).map Char.toLower = tag := by
  induction tag with
  | nil => intro line; simp [matchTagL]
  | cons t ts ih =>
    intro line
    cases line with
    | nil => simp [matchTagL]
    | cons c cs =>
      simp only [matchTagL, List.length_cons, List.take_succ_cons, List.map_cons]
      by_cases h : c.toLower = t
      · simp [h, ih cs]
      · simp [h]

/-- The type tag on an emitted segment ('moderator' | 'debater'). -/
inductive SegType where
  | moderator
  | debater
deriving DecidableEq, Repr

/-- The TurnSegment record returned by DebateSession.nextTurn. -/
structure TurnSegment where
  speaker : String
  content : String
  segType : SegType
deriving DecidableEq, Repr

/-- The moderator sentinel speaker name used by the segmenter. -/
def moderatorName : List Char := "主持人".data

/-- The mutable state of the segmentation loop in DebateSession.nextTurn:
currentSpeaker, currentType, currentContent and the segments array. -/
structure SegState where
  speaker : List Char
  segType : SegType
  content : List (List Char)
  segs : List TurnSegment
deriving DecidableEq, Repr

/-- The flush closure of DebateSession.nextTurn: if currentContent is
non-empty, append a segment whose content is the accumulated lines
joined with newlines and trimmed; otherwise emit nothing. -/
def flushedSegs (st : SegState) : List TurnSegment :=
  if st.content.isEmpty then st.segs
  else st.segs ++ [⟨String.mk st.speaker, String.mk (jsTrimL (joinLines st.content)), st.segType⟩]

/-- One iteration of the for-loop over lines in DebateSession.nextTurn:
a MODERATOR: tag flushes and starts a moderator segment (trimmed inline
text, when non-empty, becomes the first content line); a SPEAKER: tag
flushes and starts a debater segment whose speaker is the trimmed text
after the tag; any other line is appended to the current content. -/
def segStep (st : SegState) (line : List Char) : SegState :=
  match matchTagL modTag line with
  | some inline =>
    ⟨moderatorName, SegType.moderator,
      if (jsTrimL inline).isEmpty then [] else [jsTrimL inline],
      flushedSegs st⟩
  | none =>
    match matchTagL spkTag line with
    | some rest => ⟨jsTrimL rest, SegType.debater, [], flushedSegs st⟩
    | none => { st with content := st.content ++ [line] }

/-- The initial segmentation state: speaker 主持人, type moderator,
no accumulated content, no emitted segments. -/
def initSegState : SegState := ⟨moderatorName, SegType.moderator, [], []⟩

/-- The segmentation pass of DebateSession.nextTurn on the raw response
text: split into lines, fold the per-line step, flush the pending
segment, and if no segment was produced fall back to a single moderator
segment carrying the raw (untrimmed) text. -/
def runSegmenter (text : String) : List TurnSegment :=
  let st := (splitLines text.data).foldl segStep initSegState
  let segs := flushedSegs st
  if segs.isEmpty then [⟨"主持人", text, SegType.moderator⟩] else segs

/-- The default continuation prompt sent when the caller supplies no
interjection (or an empty one, which is falsy in JavaScript). -/
def defaultTurnPrompt : String :=
  "请继续下一轮辩论发言。严格遵守 \x27MODERATOR:\x27 和 \x27SPEAKER:\x27 格式。"

/-- userInput || defaultPrompt, with JavaScript falsiness on strings. -/
def composeTurnMessage (userInput : Option String) : String :=
  match userInput with
  | some t => if t = "" then defaultTurnPrompt else t
  | none => defaultTurnPrompt

/-- DebateSession.nextTurn as a function of the session's chat state and
the outcome of the external model call (the oracle): before the try
block, a missing chat handle throws; inside it, a successful call is
segmented and a thrown error is converted into one synthetic moderator
segment labelled 系统 whose content embeds the error message. -/
def nextTurn (chatInitialized : Bool) (userInput : Option String)
    (callResult : Except String String) : Except String (List TurnSegment) :=
  if chatInitialized then
    let _message := composeTurnMessage userInput
    match callResult with
    | Except.ok text => Except.ok (runSegmenter text)
    | Except.error msg =>
      Except.ok [⟨"系统", "生成错误: " ++ msg, SegType.moderator⟩]
  else Except.error "Chat not initialized"

/-- hasPrefixL p s: p is a prefix of s, compared character by character. -/
def hasPrefixL : List Char → List Char → Bool
  | [], _ => true
  | _ :: _, [] => false
  | p :: ps, c :: cs => p == c && hasPrefixL ps cs

/-- hay.includes(needle) on character lists: needle occurs contiguously
somewhere in hay (the empty needle always occurs, as in JavaScript). -/
def hasSubstr : List Char → List Char → Bool
  | [], needle => hasPrefixL needle []
  | c :: cs, needle => hasPrefixL needle (c :: cs) || hasSubstr cs needle

theorem hasPrefixL_iff (p : List Char) :
    ∀ s : List Char, hasPrefixL p s = true ↔ p <+: s := by
  induction p with
  | nil => intro s; simp [hasPrefixL]
  | cons a ps ih =>
    intro s
    cases s with
    | nil => simp [hasPrefixL]
    | cons c cs =>
      simp [hasPrefixL, ih cs, List.cons_prefix_cons]

theorem hasSubstr_iff (hay needle : List Char) :
    hasSubstr hay needle = true ↔ needle <:+: hay := by
  induction hay with
  | nil =>
    simp [hasSubstr, hasPrefixL_iff, List.prefix_nil, List.infix_nil]
  | cons c cs ih =>
    simp [hasSubstr, hasPrefixL_iff, ih, List.infix_cons_iff]

theorem hasSubstr_nil_needle (hay : List Char) : hasSubstr hay [] = true := by
  cases hay <;> simp [hasSubstr, hasPrefixL]

/-- The normalization applied by triggerNextTurn to a speaker label and
to each roster name: toLowerCase() then replace(/\s/g, ''). -/
def normalizeL (s : List Char) : List Char :=
  (s.map Char.toLower).filter (fun c => !isJsWhitespace c)

/-- A debater as declared in src/types.ts (the cosmetic avatarUrl
string is not modelled). -/
structure Debater where
  id : String
  name : String
  role : String
  side : String
  style : String
deriving DecidableEq, Repr

/-- A team as declared in src/types.ts. -/
structure Team where
  side : String
  name : String
  members : List Debater
deriving DecidableEq, Repr

/-- The roster-matching predicate of triggerNextTurn, applied to one
member m with the already-normalized label n:
mn.includes(n) || n.includes(mn), where mn is m's normalized name. -/
def memberMatches (n : List Char) (m : Debater) : Bool :=
  hasSubstr (normalizeL m.name.data) n || hasSubstr n (normalizeL m.name.data)

/-- The side attribution of one delivered segment ('proposition' |
'opposition' | 'moderator'). -/
inductive SpeakerSide where
  | proposition
  | opposition
  | moderator
deriving DecidableEq, Repr

/-- The per-segment attribution computed by triggerNextTurn: the side,
the displayed speaker name, and the value written into the currently
speaking indicator (null when the moderator branch is taken). -/
structure Resolution where
  side : SpeakerSide
  speakerName : String
  currentSpeaker : Option String
deriving DecidableEq, Repr

/-- The speaker-resolution block of triggerNextTurn for one segment:
normalize the segment's speaker, search the proposition roster with
find, then the opposition roster; a proposition hit wins, sets side,
canonical name and the currently-speaking indicator; otherwise an
opposition hit does; otherwise the segment stays a moderator one with
its original speaker and the indicator cleared. -/
def resolveSegment (propTeam oppTeam : Option Team) (seg : TurnSegment) : Resolution :=
  let n := normalizeL seg.speaker.data
  let propMember := propTeam.bind (fun t => t.members.find? (memberMatches n))
  let oppMember := oppTeam.bind (fun t => t.members.find? (memberMatches n))
  match propMember with
  | some m => ⟨SpeakerSide.proposition, m.name, some m.name⟩
  | none =>
    match oppMember with
    | some m => ⟨SpeakerSide.opposition, m.name, some m.name⟩
    | none => ⟨SpeakerSide.moderator, seg.speaker, none⟩

/-- A JavaScript value as produced by JSON.parse. -/
inductive JSValue where
  | null
  | bool (b : Bool)
  | num (n : Int)
  | str (s : String)
  | arr (elems : List JSValue)
  | obj (fields : List (String × JSValue))

/-- JavaScript truthiness of a parsed value. -/
def jsTruthy : JSValue → Bool
  | JSValue.null => false
  | JSValue.bool b => b
  | JSValue.num n => n != 0
  | JSValue.str s => s ≠ ""
  | JSValue.arr _ => true
  | JSValue.obj _ => true

/-- Property access v[k] in JavaScript: reading a property of null
throws a TypeError; objects yield the stored value or undefined (none);
every other value yields undefined. -/
def jsGet (v : JSValue) (k : String) : Except String (Option JSValue) :=
  match v with
  | JSValue.null =>
    Except.error ("TypeError: Cannot read properties of null (reading " ++ k ++ ")")
  | JSValue.obj fields => Except.ok (fields.lookup k)
  | _ => Except.ok none

/-- x || \x7b\x7d on an optional property value: a missing or falsy
value defaults to the empty object. -/
def orEmptyObj (v : Option JSValue) : JSValue :=
  match v with
  | some w => if jsTruthy w then w else JSValue.obj []
  | none => JSValue.obj []

/-- Array.isArray(x) ? x : [] on an optional property value. -/
def asArr (v : Option JSValue) : List JSValue :=
  match v with
  | some (JSValue.arr xs) => xs
  | _ => []

/-- The member-list extraction for one side in initializeTeams:
(data.side || \x7b\x7d).members filtered through Array.isArray. -/
def extractMembers (data : JSValue) (key : String) : Except String (List JSValue) := do
  let td := orEmptyObj (← jsGet data key)
  let ms := asArr (← jsGet td "members")
  pure ms

/-- The team-name extraction for one side in initializeTeams:
(data.side || \x7b\x7d).name || defaultName. -/
def teamNameFor (data : JSValue) (key dflt : String) : Except String JSValue := do
  let td := orEmptyObj (← jsGet data key)
  let nv ← jsGet td "name"
  pure (match nv with
    | some v => if jsTruthy v then v else JSValue.str dflt
    | none => JSValue.str dflt)

/-- The synthesized placeholder member pushed for an empty proposition
member list. -/
def placeholderPropMember : JSValue :=
  JSValue.obj [("name", JSValue.str "正方辩手 1"), ("role", JSValue.str "辩手"),
               ("style", JSValue.str "标准")]

/-- The synthesized placeholder member pushed for an empty opposition
member list. -/
def placeholderOppMember : JSValue :=
  JSValue.obj [("name", JSValue.str "反方辩手 1"), ("role", JSValue.str "辩手"),
               ("style", JSValue.str "标准")]

/-- A constructed debater as assembled by initializeTeams: the spread of
the parsed member value plus the assigned id and side (the cosmetic
avatarUrl, a pure function of name and side, is not modelled, but the
m.name property read it performs is). -/
structure BuiltDebater where
  fields : JSValue
  id : String
  side : String

/-- A constructed team as assigned to this.propTeam / this.oppTeam. -/
structure BuiltTeam where
  side : String
  name : JSValue
  members : List BuiltDebater

/-- The members.map of initializeTeams for one side, carrying the running
index: each member gets the id prefix-i; reading m.name for the avatar
seed throws a TypeError when m is null. -/
def buildMembers (pfx side : String) : Nat → List JSValue → Except String (List BuiltDebater)
  | _, [] => Except.ok []
  | i, m :: rest => do
    let _nameSeed ← jsGet m "name"
    let tail ← buildMembers pfx side (i + 1) rest
    pure (⟨m, pfx ++ toString i, side⟩ :: tail)

/-- DebateSession.initializeTeams as a function of the response text and
of the outcome of JSON.parse on it (none when JSON.parse throws): empty
text and parse failures throw; the parsed teams are read with defensive
defaults, empty member lists get exactly one placeholder member, members
get side-prefixed sequential ids, and the two teams are returned (and,
in the source, assigned to the session) only after every step succeeds. -/
def initializeTeams (text : String) (parsed : Option JSValue) :
    Except String (BuiltTeam × BuiltTeam) :=
  if text = "" then Except.error "No response from AI"
  else
    match parsed with
    | none => Except.error "Failed to parse debate teams configuration."
    | some data =>
      match extractMembers data "proposition" with
      | Except.error e => Except.error e
      | Except.ok propMembers0 =>
      match extractMembers data "opposition" with
      | Except.error e => Except.error e
      | Except.ok oppMembers0 =>
        let propMembers := if propMembers0.isEmpty then [placeholderPropMember] else propMembers0
        let oppMembers := if oppMembers0.isEmpty then [placeholderOppMember] else oppMembers0
        match teamNameFor data "proposition" "正方" with
        | Except.error e => Except.error e
        | Except.ok propName =>
        match buildMembers "prop-" "proposition" 0 propMembers with
        | Except.error e => Except.error e
        | Except.ok propBuilt =>
        match teamNameFor data "opposition" "反方" with
        | Except.error e => Except.error e
        | Except.ok oppName =>
        match buildMembers "opp-" "opposition" 0 oppMembers with
        | Except.error e => Except.error e
        | Except.ok oppBuilt =>
          Except.ok (⟨"proposition", propName, propBuilt⟩, ⟨"opposition", oppName, oppBuilt⟩)

/-- Entry guard of DebateSession.nextTurn (the throw before the try
block): the call proceeds exactly when this.chat is non-null. The
session object stores no in-flight flag; the second parameter records
whether a turn issued by the caller is still pending (the component's
isLoadingTurn state) and is not consulted anywhere in the method. -/
def nextTurnAccepts (chatInitialized : Bool) (_turnInFlight : Bool) : Bool :=
  chatInitialized

/-- The guard at the top of triggerNextTurn in the application
component: the function returns immediately (issuing no nextTurn call)
unless a session exists and isLoadingTurn is false. -/
def triggerNextTurnStarts (sessionPresent isLoadingTurn : Bool) : Bool :=
  sessionPresent && !isLoadingTurn

theorem segStep_nonTag {line : List Char} (h : isTagLine line = false) (st : SegState) :
    segStep st line = { st with content := st.content ++ [line] } := by
  cases hm : matchTagL modTag line with
  | some r => simp [isTagLine, hm] at h
  | none =>
    cases hs : matchTagL spkTag line with
    | some r => simp [isTagLine, hm, hs] at h
    | none => simp [segStep, hm, hs]

theorem foldl_segStep_nonTag (lines : List (List Char)) :
    ∀ st : SegState, (∀ l ∈ lines, isTagLine l = false) →
      lines.foldl segStep st = { st with content := st.content ++ lines } := by
  induction lines with
  | nil => intro st _; simp
  | cons l ls ih =>
    intro st h
    have hl : isTagLine l = false := h l (by simp)
    simp only [List.foldl_cons, segStep_nonTag hl]
    rw [ih _ (fun x hx => h x (by simp [hx]))]
    simp

theorem memberMatches_nil (m : Debater) : memberMatches [] m = true := by
  simp [memberMatches, hasSubstr_nil_needle]

theorem not_modTag_of_spkTag {line rest : List Char}
    (h : matchTagL spkTag line = some rest) : matchTagL modTag line = none := by
  cases hm : matchTagL modTag line with
  | none => rfl
  | some r =>
    have h1 : (matchTagL modTag line).isSome = true := by simp [hm]
    have h2 : (matchTagL spkTag line).isSome = true := by simp [h]
    rw [matchTagL_isSome_iff] at h1 h2
    cases line with
    | nil => simp [modTag] at h1
    | cons c cs =>
      simp only [modTag, spkTag, List.length_cons, List.take_succ_cons,
        List.map_cons, String.data] at h1 h2
      have hm1 : c.toLower = 'm' := by
        have := congrArg (fun l => l.headI) h1
        simpa using this
      have hs1 : c.toLower = 's' := by
        have := congrArg (fun l => l.headI) h2
        simpa using this
      rw [hm1] at hs1
      exact absurd hs1 (by decide)

theorem buildMembers_ok (pfx side : String) :
    ∀ (k : Nat) (ms : List JSValue) (out : List BuiltDebater),
      buildMembers pfx side k ms = Except.ok out →
      out.length = ms.length ∧
      ∀ i, ∀ hi : i < out.length, (out.get ⟨i, hi⟩).id = pfx ++ toString (k + i) := by
  intro k ms
  induction ms generalizing k with
  | nil =>
    intro out h
    simp only [buildMembers] at h
    cases h
    exact ⟨rfl, fun i hi => absurd hi (by simp)⟩
  | cons m rest ih =>
    intro out h
    cases hn : jsGet m "name" with
    | error e => simp [buildMembers, hn, Bind.bind, Except.bind] at h
    | ok v =>
      cases ht : buildMembers pfx side (k + 1) rest with
      | error e => simp [buildMembers, hn, ht, Bind.bind, Except.bind] at h
      | ok tail =>
        simp only [buildMembers, hn, ht, Bind.bind, Except.bind, Functor.map,
          Except.map] at h
        cases h
        obtain ⟨hlen, hid⟩ := ih (k + 1) tail ht
        refine ⟨by simp [hlen], ?_⟩
        intro i hi
        cases i with
        | zero => simp
        | succ j =>
          have hj : j < tail.length := by
            simpa using Nat.lt_of_succ_lt_succ hi
          have := hid j hj
          simpa [Nat.add_assoc, Nat.add_comm 1 j] using this

/-- C1 is false on the code at this concrete state: with the chat
initialized and a turn already in flight, DebateSession.nextTurn itself
accepts the second call — the session performs no reentrancy check, so
the core does not refuse a concurrent call. -/
theorem c1_counterexample : nextTurnAccepts true true = true := rfl

/-- C1 (amended): the reentrancy guard lives only in the UI layer.
Whether DebateSession.nextTurn accepts a call never depends on a turn
being in flight (it depends only on chat initialization), while
triggerNextTurn refuses to start whenever isLoadingTurn is set, so no
second call is issued through the UI while one is pending. -/
theorem c1_guard_is_ui_only :
    (∀ c f g : Bool, nextTurnAccepts c f = nextTurnAccepts c g) ∧
    (∀ s : Bool, triggerNextTurnStarts s true = false) ∧
    (∀ f : Bool, nextTurnAccepts false f = false) :=
  ⟨fun _ _ _ => rfl, fun s => by simp [triggerNextTurnStarts], fun _ => rfl⟩

/-- C2: on a session whose chat is initialized (which holds whenever
initializeTeams has succeeded), nextTurn never throws: every outcome of
the external call yields an ok result; a thrown collaborator error is
converted into exactly one synthetic moderator segment labelled 系统
whose content embeds the diagnostic message, and a successful call
yields the segmented text. -/
theorem c2_nextTurn_never_throws (uin : Option String) (res : Except String String) :
    (nextTurn true uin res).isOk = true ∧
    (∀ msg, res = Except.error msg →
      nextTurn true uin res =
        Except.ok [⟨"系统", "生成错误: " ++ msg, SegType.moderator⟩]) ∧
    (∀ text, res = Except.ok text →
      nextTurn true uin res = Except.ok (runSegmenter text)) := by
  refine ⟨?_, ?_, ?_⟩ <;> cases res <;> simp [nextTurn, Except.isOk, Except.toBool]

/-- C2 witness: a concrete network failure is absorbed into the
synthetic diagnostic segment. -/
theorem c2_witness :
    nextTurn true none (Except.error "网络超时") =
      Except.ok [⟨"系统", "生成错误: 网络超时", SegType.moderator⟩] :=
  (c2_nextTurn_never_throws none (Except.error "网络超时")).2.1 "网络超时" rfl

/-- C5: the resolver matches a member exactly when one of the
normalized (case-folded, whitespace-stripped) strings is a substring of
the other; a hit in the proposition roster wins over any opposition
hit and installs the canonical roster name and the speaking indicator;
otherwise the first opposition hit does; and when neither roster has a
qualifying member the segment degrades to an unattributed moderator one
instead of raising an error. -/
theorem c5_speaker_resolution (pt ot : Team) (seg : TurnSegment) :
    (∀ m, memberMatches (normalizeL seg.speaker.data) m = true ↔
      (normalizeL m.name.data <:+: normalizeL seg.speaker.data ∨
       normalizeL seg.speaker.data <:+: normalizeL m.name.data)) ∧
    (∀ m, pt.members.find? (memberMatches (normalizeL seg.speaker.data)) = some m →
      resolveSegment (some pt) (some ot) seg =
        ⟨SpeakerSide.proposition, m.name, some m.name⟩) ∧
    (pt.members.find? (memberMatches (normalizeL seg.speaker.data)) = none →
      ∀ m, ot.members.find? (memberMatches (normalizeL seg.speaker.data)) = some m →
      resolveSegment (some pt) (some ot) seg =
        ⟨SpeakerSide.opposition, m.name, some m.name⟩) ∧
    (pt.members.find? (memberMatches (normalizeL seg.speaker.data)) = none →
      ot.members.find? (memberMatches (normalizeL seg.speaker.data)) = none →
      resolveSegment (some pt) (some ot) seg =
        ⟨SpeakerSide.moderator, seg.speaker, none⟩) := by
  refine ⟨?_, ?_, ?_, ?_⟩
  · intro m
    simp [memberMatches, hasSubstr_iff, or_comm]
  · intro m hp
    simp [resolveSegment, hp]
  · intro hp m ho
    simp [resolveSegment, hp, ho]
  · intro hp ho
    simp [resolveSegment, hp, ho]

/-- C5 witness: the label 张三 matches nobody in a roster holding only
林晓宇 and 王芳, so the segment is rendered moderator/unattributed. -/
theorem c5_witness :
    resolveSegment
      (some ⟨"proposition", "正方",
        [⟨"prop-0", "林晓宇", "一辩", "proposition", "犀利"⟩,
         ⟨"prop-1", "王芳", "二辩", "proposition", "沉稳"⟩]⟩)
      (some ⟨"opposition", "反方", []⟩)
      ⟨"张三", "我方认为", SegType.debater⟩ =
      ⟨SpeakerSide.moderator, "张三", none⟩ :=
  (c5_speaker_resolution _ _ _).2.2.2 (by decide) (by decide)

/-- C9: a speaker label whose normalized form is empty (for instance a
bare SPEAKER: line yields the empty label) is a substring of every
roster name, so the resolver attributes the segment to the first member
of the proposition roster — with canonical name and speaking indicator —
rather than treating it as unattributed. -/
theorem c9_empty_label_first_prop (pt ot : Team) (seg : TurnSegment)
    (m : Debater) (rest : List Debater)
    (hn : normalizeL seg.speaker.data = [])
    (hm : pt.members = m :: rest) :
    resolveSegment (some pt) (some ot) seg =
      ⟨SpeakerSide.proposition, m.name, some m.name⟩ := by
  have hfind : pt.members.find? (memberMatches (normalizeL seg.speaker.data)) = some m := by
    rw [hm, hn]
    exact List.find?_cons_of_pos _ (memberMatches_nil m)
  simp [resolveSegment, hfind]

/-- C9 witness: an all-whitespace label is attributed to the first
proposition member. -/
theorem c9_witness :
    resolveSegment
      (some ⟨"proposition", "正方",
        [⟨"prop-0", "林晓宇", "一辩", "proposition", "犀利"⟩]⟩)
      (some ⟨"opposition", "反方", []⟩)
      ⟨"  ", "……", SegType.debater⟩ =
      ⟨SpeakerSide.proposition, "林晓宇", some "林晓宇"⟩ :=
  c9_empty_label_first_prop _ _ _ _ _ (by decide) rfl

/-- C10: the attribution of a delivered segment reads only its speaker
string — changing the content or the type field never changes the
resolution — and when some proposition member matches the normalized
moderator sentinel 主持人, a moderator-typed segment is attributed to
that debater, displayed with the canonical name and with the
currently-speaking indicator set to them. -/
theorem c10_side_ignores_type (pt ot : Option Team) (sp c1 c2 : String)
    (t1 t2 : SegType) :
    resolveSegment pt ot ⟨sp, c1, t1⟩ = resolveSegment pt ot ⟨sp, c2, t2⟩ ∧
    (∀ team m, pt = some team →
      team.members.find? (memberMatches (normalizeL sp.data)) = some m →
      resolveSegment pt ot ⟨sp, c1, t1⟩ =
        ⟨SpeakerSide.proposition, m.name, some m.name⟩) := by
  constructor
  · rfl
  · intro team m hpt hfind
    subst hpt
    simp [resolveSegment, hfind]

/-- C10 witness: a roster member named 主持 matches the sentinel 主持人
by the substring rule, so the moderator segment is shown as that
proposition debater speaking. -/
theorem c10_witness :
    resolveSegment
      (some ⟨"proposition", "正方", [⟨"prop-0", "主持", "一辩", "proposition", "稳健"⟩]⟩)
      (some ⟨"opposition", "反方", []⟩)
      ⟨"主持人", "大家好", SegType.moderator⟩ =
      ⟨SpeakerSide.proposition, "主持", some "主持"⟩ :=
  (c10_side_ignores_type (some ⟨"proposition", "正方",
      [⟨"prop-0", "主持", "一辩", "proposition", "稳健"⟩]⟩)
    (some ⟨"opposition", "反方", []⟩) "主持人" "大家好" "大家好"
    SegType.moderator SegType.moderator).2 _
    ⟨"prop-0", "主持", "一辩", "proposition", "稳健"⟩ rfl (by decide)

/-- C4 is false on the code at this concrete input: the blank line
between the two SPEAKER: tags is pushed into the accumulator, so the
flush triggered by the second tag emits a segment whose trimmed content
is the empty string — an emitted segment with empty content. -/
theorem c4_counterexample :
    runSegmenter "SPEAKER: a\n\nSPEAKER: b\nhi" =
      [⟨"a", "", SegType.debater⟩, ⟨"b", "hi", SegType.debater⟩] := by
  decide

/-- C4 (amended): a segment is emitted on flush exactly when at least
one line — possibly a blank one — has been accumulated since the last
tag. A tag line arriving while the accumulator is empty (a tag
immediately followed by another tag), and end of input with an empty
accumulator, produce no output entry; but the emitted content is the
trimmed join of the accumulated lines, which can be the empty string
when only blank lines intervened between two tags. -/
theorem c4_flush_rule :
    (∀ st : SegState, st.content = [] → flushedSegs st = st.segs) ∧
    (∀ (st : SegState) (line inline : List Char), st.content = [] →
      matchTagL modTag line = some inline → (segStep st line).segs = st.segs) ∧
    (∀ (st : SegState) (line rest : List Char), st.content = [] →
      matchTagL spkTag line = some rest → (segStep st line).segs = st.segs) ∧
    (∀ st : SegState, st.content ≠ [] →
      flushedSegs st = st.segs ++
        [⟨String.mk st.speaker, String.mk (jsTrimL (joinLines st.content)), st.segType⟩]) := by
  refine ⟨?_, ?_, ?_, ?_⟩
  · intro st h
    simp [flushedSegs, h]
  · intro st line inline h hm
    simp [segStep, hm, flushedSegs, h]
  · intro st line rest h hs
    simp [segStep, not_modTag_of_spkTag hs, hs, flushedSegs, h]
  · intro st h
    simp [flushedSegs, h]

/-- C4 witness for the amended flush rule: a SPEAKER: tag arriving right
after another tag, with nothing accumulated, emits no segment. -/
theorem c4_witness :
    segStep ⟨"a".data, SegType.debater, [], []⟩ "SPEAKER: b".data =
      ⟨"b".data, SegType.debater, [], []⟩ ∧
    (segStep ⟨"a".data, SegType.debater, [], []⟩ "SPEAKER: b".data).segs = [] := by
  refine ⟨by decide, c4_flush_rule.2.2.1 _ _ "b".data rfl (by decide)⟩

/-- C6: when no line of the input is recognized as a MODERATOR: or
SPEAKER: tag (including empty or error text), the segmenter emits
exactly one segment, of type moderator, whose content is the trimmed
full input — every turn yields at least one displayable unit. -/
theorem c6_no_tag_single_segment (text : String)
    (h : ∀ l ∈ splitLines text.data, isTagLine l = false) :
    runSegmenter text = [⟨"主持人", jsTrim text, SegType.moderator⟩] := by
  unfold runSegmenter
  rw [foldl_segStep_nonTag _ _ h]
  have hne : splitLines text.data ≠ [] := splitLines_ne_nil text.data
  simp only [initSegState, List.nil_append]
  rw [show flushedSegs ⟨moderatorName, SegType.moderator, splitLines text.data, []⟩ =
      [⟨String.mk moderatorName,
        String.mk (jsTrimL (joinLines (splitLines text.data))), SegType.moderator⟩] from by
    simp [flushedSegs, List.isEmpty_iff, hne]]
  rw [joinLines_splitLines]
  rfl

/-- C6 witness: tag-free text collapses to one trimmed moderator
segment. -/
theorem c6_witness :
    runSegmenter "  你好 world  " = [⟨"主持人", "你好 world", SegType.moderator⟩] := by
  have h := c6_no_tag_single_segment "  你好 world  " (by decide)
  rw [h]
  decide

/-- C7: a line is recognized as a tag exactly when its first characters,
case-folded, are the literal prefix MODERATOR: or SPEAKER: anchored at
line start; any other line — missing colon, leading whitespace before
the tag — is appended to the current segment as ordinary content; and a
recognized MODERATOR: tag starts a fresh moderator segment whose first
content line is the trimmed inline text when there is any. -/
theorem c7_tag_grammar :
    (∀ line : List Char, (matchTagL modTag line).isSome = true ↔
      (line.take modTag.length).map Char.toLower = modTag) ∧
    (∀ line : List Char, (matchTagL spkTag line).isSome = true ↔
      (line.take spkTag.length).map Char.toLower = spkTag) ∧
    (∀ (st : SegState) (line : List Char), matchTagL modTag line = none →
      matchTagL spkTag line = none →
      segStep st line = { st with content := st.content ++ [line] }) ∧
    (∀ (st : SegState) (line inline : List Char), matchTagL modTag line = some inline →
      segStep st line =
        ⟨moderatorName, SegType.moderator,
          if (jsTrimL inline).isEmpty then [] else [jsTrimL inline],
          flushedSegs st⟩) := by
  refine ⟨matchTagL_isSome_iff modTag, matchTagL_isSome_iff spkTag, ?_, ?_⟩
  · intro st line hm hs
    simp [segStep, hm, hs]
  · intro st line inline hm
    simp [segStep, hm]

/-- C7 witness: a leading space defeats the tag and the line becomes
content, while an exact case-insensitive prefix starts a moderator
segment carrying the trimmed inline text. -/
theorem c7_witness :
    segStep initSegState " MODERATOR: 你好".data =
      { initSegState with content := [" MODERATOR: 你好".data] } ∧
    segStep initSegState "moderator: 你好".data =
      ⟨moderatorName, SegType.moderator, ["你好".data], []⟩ := by
  constructor
  · exact c7_tag_grammar.2.2.1 initSegState _ (by decide) (by decide)
  · have h := c7_tag_grammar.2.2.2 initSegState "moderator: 你好".data "你好".data (by decide)
    rw [h]
    decide

/-- C3 is false on the code at this concrete input: the response "\x7b\x7d"
is valid JSON (JSON.parse yields the empty object), so it is not
parseable as the expected shape — it has neither a proposition nor an
opposition team — yet initializeTeams succeeds, establishing two teams
whose names and members are synthesized defaults. -/
theorem c3_counterexample :
    initializeTeams "{}" (some (JSValue.obj [])) =
      Except.ok
        (⟨"proposition", JSValue.str "正方",
          [⟨placeholderPropMember, "prop-0", "proposition"⟩]⟩,
         ⟨"opposition", JSValue.str "反方",
          [⟨placeholderOppMember, "opp-0", "opposition"⟩]⟩) := rfl

/-- C3 (amended): initializeTeams fails whenever the response text is
empty ("No response from AI") or JSON.parse cannot parse it at all
("Failed to parse debate teams configuration."); either error
propagates to the caller and the function exits before the team
assignments, so no teams are established in that case. A response that
parses as JSON but lacks the expected shape (such as the empty object)
is not rejected on that ground: team construction proceeds with
defensive defaults and placeholder members. -/
theorem c3_error_conditions :
    (∀ parsed : Option JSValue,
      initializeTeams "" parsed = Except.error "No response from AI") ∧
    (∀ text : String, text ≠ "" →
      initializeTeams text none =
        Except.error "Failed to parse debate teams configuration.") ∧
    (initializeTeams "{}" (some (JSValue.obj []))).isOk = true := by
  refine ⟨?_, ?_, rfl⟩
  · intro parsed
    simp [initializeTeams]
  · intro text ht
    simp [initializeTeams, ht]

/-- C3 witness: a non-empty response that JSON.parse rejects aborts
team setup with the parse ConfigurationError. -/
theorem c3_witness :
    initializeTeams "not json" none =
      Except.error "Failed to parse debate teams configuration." :=
  c3_error_conditions.2.1 "not json" (by decide)

/-- C8: when team construction succeeds, a side whose parsed member list
came out empty (missing, non-array or literally empty) gets exactly one
synthesized placeholder member, and every member of either team carries
the side-prefixed sequential id of its position in the final list. -/
theorem c8_member_synthesis_and_ids (text : String) (d : JSValue) (p o : BuiltTeam)
    (h : initializeTeams text (some d) = Except.ok (p, o)) :
    (extractMembers d "proposition" = Except.ok [] →
      p.members.length = 1 ∧
      p.members = [⟨placeholderPropMember, "prop-0", "proposition"⟩]) ∧
    (extractMembers d "opposition" = Except.ok [] →
      o.members.length = 1 ∧
      o.members = [⟨placeholderOppMember, "opp-0", "opposition"⟩]) ∧
    (∀ i, ∀ hi : i < p.members.length, (p.members.get ⟨i, hi⟩).id = "prop-" ++ toString i) ∧
    (∀ i, ∀ hi : i < o.members.length, (o.members.get ⟨i, hi⟩).id = "opp-" ++ toString i) := by
  by_cases ht : text = ""
  · simp [initializeTeams, ht] at h
  cases hpm : extractMembers d "proposition" with
  | error e => simp [initializeTeams, ht, hpm] at h
  | ok pm =>
  cases hom : extractMembers d "opposition" with
  | error e => simp [initializeTeams, ht, hpm, hom] at h
  | ok om =>
  cases hpn : teamNameFor d "proposition" "正方" with
  | error e => simp [initializeTeams, ht, hpm, hom, hpn] at h
  | ok pn =>
  cases hpb : buildMembers "prop-" "proposition" 0
      (if pm.isEmpty then [placeholderPropMember] else pm) with
  | error e => simp [initializeTeams, ht, hpm, hom, hpn, hpb] at h
  | ok pb =>
  cases hqn : teamNameFor d "opposition" "反方" with
  | error e => simp [initializeTeams, ht, hpm, hom, hpn, hpb, hqn] at h
  | ok qn =>
  cases hqb : buildMembers "opp-" "opposition" 0
      (if om.isEmpty then [placeholderOppMember] else om) with
  | error e => simp [initializeTeams, ht, hpm, hom, hpn, hpb, hqn, hqb] at h
  | ok qb =>
  simp only [initializeTeams, if_neg ht, hpm, hom, hpn, hpb, hqn, hqb] at h
  cases h
  refine ⟨?_, ?_, ?_, ?_⟩
  · intro hempty
    have hpm0 : pm = [] := by injection hempty
    subst hpm0
    have hred : buildMembers "prop-" "proposition" 0
        (if ([] : List JSValue).isEmpty then [placeholderPropMember] else []) =
        Except.ok [⟨placeholderPropMember, "prop-0", "proposition"⟩] := rfl
    rw [hred] at hpb
    injection hpb with hpb2
    subst hpb2
    exact ⟨rfl, rfl⟩
  · intro hempty
    have hom0 : om = [] := by injection hempty
    subst hom0
    have hred : buildMembers "opp-" "opposition" 0
        (if ([] : List JSValue).isEmpty then [placeholderOppMember] else []) =
        Except.ok [⟨placeholderOppMember, "opp-0", "opposition"⟩] := rfl
    rw [hred] at hqb
    injection hqb with hqb2
    subst hqb2
    exact ⟨rfl, rfl⟩
  · intro i hi
    have := (buildMembers_ok "prop-" "proposition" 0 _ pb hpb).2 i hi
    simpa using this
  · intro i hi
    have := (buildMembers_ok "opp-" "opposition" 0 _ qb hqb).2 i hi
    simpa using this

/-- A sample parsed configuration with an empty proposition member list
and a two-member opposition, used to witness C8. -/
def sampleConfig : JSValue :=
  JSValue.obj
    [("proposition", JSValue.obj [("name", JSValue.str "甲队"),
        ("members", JSValue.arr [])]),
     ("opposition", JSValue.obj [("name", JSValue.str "乙队"),
        ("members", JSValue.arr
          [JSValue.obj [("name", JSValue.str "王强")],
           JSValue.obj [("name", JSValue.str "李雷")]])])]

/-- The proposition team built from the sample configuration. -/
def samplePropTeam : BuiltTeam :=
  ⟨"proposition", JSValue.str "甲队", [⟨placeholderPropMember, "prop-0", "proposition"⟩]⟩

/-- The opposition team built from the sample configuration. -/
def sampleOppTeam : BuiltTeam :=
  ⟨"opposition", JSValue.str "乙队",
    [⟨JSValue.obj [("name", JSValue.str "王强")], "opp-0", "opposition"⟩,
     ⟨JSValue.obj [("name", JSValue.str "李雷")], "opp-1", "opposition"⟩]⟩

/-- C8 witness: the empty proposition list yields exactly the one
placeholder member, and opposition ids run opp-0, opp-1. -/
theorem c8_witness :
    samplePropTeam.members.length = 1 ∧
    samplePropTeam.members = [⟨placeholderPropMember, "prop-0", "proposition"⟩] ∧
    sampleOppTeam.members.map (fun m => m.id) = ["opp-0", "opp-1"] := by
  have h := c8_member_synthesis_and_ids "x" sampleConfig samplePropTeam sampleOppTeam rfl
  exact ⟨(h.1 rfl).1, (h.1 rfl).2, rfl⟩
